import Mathlib

/- Verification of the ab_engine core: deterministic variant assignment
   (src/engine/randomization.py), the two-proportion statistics and the
   required-sample-size computation (src/engine/stats.py), and the
   ship/block decision rule (ExperimentStats.get_decision).

   Modelling conventions:
   * Python floats are modelled as exact rationals, or as reals where an
     analytic fact about the closed-form sample-size formula is proved.
   * The external library calls (hashlib.sha256, numpy.sqrt,
     scipy.stats.norm.cdf, scipy.stats.norm.ppf) are modelled as explicit
     function parameters of the embedded definitions.
   * Operations that can raise in Python return `Except PyError`.
     get_decision and get_variant contain no raising operation (dict.get with
     a default, boolean tests, comparisons, hashing and string formatting are
     total), so their embeddings are plain functions.
   * numpy float64 division by zero does not raise; it silently yields
     inf (or nan for 0/0), and the subsequent int(...) conversion then raises
     OverflowError (resp. ValueError).  Python float division by zero raises
     ZeroDivisionError.  The embedding reflects these two behaviours where
     they occur. -/

namespace ABEngine

/-- The Python error classes actually raised by the embedded code. -/
inductive PyError where
  | zeroDivisionError
  | overflowError
  | valueError
deriving DecidableEq

/-- One lowercase hexadecimal character, as produced by Python's hexdigest. -/
def hexChar (n : ℕ) : Char :=
  if n < 10 then Char.ofNat (48 + n) else Char.ofNat (87 + n)

/-- Two-character lowercase hexadecimal rendering of one byte. -/
def hexPair (b : ℕ) : List Char :=
  [hexChar (b / 16), hexChar (b % 16)]

/-- Python's hashlib .hexdigest(): every digest byte as two lowercase hex
characters, in digest order. -/
def hexdigest : List ℕ → List Char
  | [] => []
  | b :: bs => hexPair b ++ hexdigest bs

/-- Value of one lowercase hexadecimal character, as read by Python's
int(s, 16). -/
def hexVal (c : Char) : ℕ :=
  if c.toNat ≤ 57 then c.toNat - 48 else c.toNat - 87

/-- Python's int(s, 16) over a list of hexadecimal characters. -/
def intOfHex (cs : List Char) : ℕ :=
  cs.foldl (fun a c => 16 * a + hexVal c) 0

namespace Randomizer

/-- src/src/engine/randomization.py, Randomizer.get_variant.
The SHA-256 call is an external library call; it is modelled by the `digest`
parameter, which returns the digest's bytes for a given input string.  The
rest is translated literally: the salted key is "user_id_experiment_id", the
first 8 characters of the hex digest are parsed as an integer, reduced
mod 1000, and compared against split * 1000. -/
def get_variant (digest : String → List ℕ) (user_id experiment_id : String)
    (split : ℚ) : String :=
  let input_str := user_id ++ "_" ++ experiment_id
  let hash_hex := hexdigest (digest input_str)
  let bucket := intOfHex (hash_hex.take 8) % 1000
  if (bucket : ℚ) < split * 1000 then "B" else "A"

end Randomizer

/-- The first 32 bits of a digest — its first four bytes, big-endian — read
as an unsigned integer.  This follows the specification's wording ("interpret
a fixed-width prefix of the resulting digest ... as an unsigned integer");
it is the claim-side definition compared against the code's hex-string
manipulation. -/
def first32 : List ℕ → ℕ
  | b0 :: b1 :: b2 :: b3 :: _ => ((b0 * 256 + b1) * 256 + b2) * 256 + b3
  | _ => 0

/-- A decision input as passed to get_decision: a Python dict that may or may
not carry the 'significant' and 'lift' keys.  A missing key is `none`. -/
structure DecisionInput where
  significant : Option Bool
  lift : Option ℚ
deriving DecidableEq

namespace ExperimentStats

/-- The BLOCK verdict string returned by get_decision. -/
def BLOCK : String := "🛑 DO NOT SHIP: Guardrail Violated"

/-- The SHIP verdict string returned by get_decision. -/
def SHIP : String := "✅ SHIP: Statistically Significant Gain"

/-- The INCONCLUSIVE verdict string returned by get_decision. -/
def INCONCLUSIVE : String := "⚠️ INCONCLUSIVE: Keep A / Collect More Data"

/-- src/src/engine/stats.py, ExperimentStats.get_decision, translated
literally: primary_result.get('significant', False), .get('lift', 0) become
Option.getD; any(...) over the guardrails becomes List.any; the guardrail
check dominates the primary check. -/
def get_decision (primary_result : DecisionInput)
    (guardrail_results : List DecisionInput) : String :=
  let is_positive := primary_result.significant.getD false
    && decide (0 < primary_result.lift.getD 0)
  let guardrail_violated := guardrail_results.any fun g =>
    g.significant.getD false && decide (g.lift.getD 0 < -0.02)
  if guardrail_violated then BLOCK
  else if is_positive then SHIP
  else INCONCLUSIVE

end ExperimentStats

/-- The result dict of analyze_proportions: rates, lift and confidence
interval rounded to 4 decimal places, p-value rounded to 5, and the
significance flag (computed from the unrounded p-value). -/
structure AnalysisResult where
  p_a : ℚ
  p_b : ℚ
  lift : ℚ
  p_value : ℚ
  ci : ℚ × ℚ
  significant : Bool
deriving DecidableEq

/-- Python's round(x, d): round half away from ties is immaterial here; ties
never occur in the claims' inputs.  Modelled as rounding x * 10^d to the
nearest integer. -/
def roundTo (d : ℕ) (x : ℚ) : ℚ := (round (x * 10 ^ d) : ℤ) / 10 ^ d

namespace ExperimentStats

/-- The squared numerator of the sample-size formula in
ExperimentStats.calculate_sample_size, with the external norm.ppf and
np.sqrt as parameters. -/
def sampleSizeNum {K : Type} [LinearOrderedField K] (sqrt ppf : K → K)
    (baseline mde alpha power : K) : K :=
  let p1 := baseline
  let p2 := baseline * (1 + mde)
  let p_avg := (p1 + p2) / 2
  let z_alpha := ppf (1 - alpha / 2)
  let z_beta := ppf power
  (z_alpha * sqrt (2 * p_avg * (1 - p_avg))
    + z_beta * sqrt (p1 * (1 - p1) + p2 * (1 - p2))) ^ 2

/-- The value n computed by ExperimentStats.calculate_sample_size before
int(np.ceil(n)). -/
def sampleSizeVal {K : Type} [LinearOrderedField K] (sqrt ppf : K → K)
    (baseline mde alpha power : K) : K :=
  sampleSizeNum sqrt ppf baseline mde alpha power
    / (baseline - baseline * (1 + mde)) ^ 2

/-- src/src/engine/stats.py, ExperimentStats.calculate_sample_size.
The arithmetic is numpy float64 arithmetic: when the denominator (p1-p2)^2
is zero the division raises nothing and yields inf (or nan when the numerator
is also zero), and the final int(np.ceil(n)) conversion then raises
OverflowError (resp. ValueError).  When the denominator is nonzero the result
is the ceiling of n as an integer. -/
def calculate_sample_size {K : Type} [LinearOrderedField K] [FloorRing K]
    (sqrt ppf : K → K) (baseline mde alpha power : K) : Except PyError ℤ :=
  if (baseline - baseline * (1 + mde)) ^ 2 = 0 then
    .error (if sampleSizeNum sqrt ppf baseline mde alpha power = 0
      then .valueError else .overflowError)
  else
    .ok ⌈sampleSizeVal sqrt ppf baseline mde alpha power⌉

/-- The sample-size formula exactly as the specification states it (§4.2):
p1 = baseline, p2 = baseline·(1+mde), p_avg = (p1+p2)/2,
z_alpha = ppf(1 - alpha/2), z_beta = ppf(power),
n = [z_alpha·sqrt(2·p_avg·(1-p_avg)) + z_beta·sqrt(p1·(1-p1)+p2·(1-p2))]²
    / (p1-p2)².
Declared from the spec's words, to be compared with the code's
sampleSizeVal. -/
def sampleSizeSpec {K : Type} [LinearOrderedField K] (sqrt ppf : K → K)
    (baseline mde alpha power : K) : K :=
  let p1 := baseline
  let p2 := baseline * (1 + mde)
  let p_avg := (p1 + p2) / 2
  let z_alpha := ppf (1 - alpha / 2)
  let z_beta := ppf power
  (z_alpha * sqrt (2 * p_avg * (1 - p_avg))
    + z_beta * sqrt (p1 * (1 - p1) + p2 * (1 - p2))) ^ 2 / (p1 - p2) ^ 2

/-- The unrounded two-sided p-value computed inside analyze_proportions:
z = (p_b - p_a)/se with the pooled standard error, p = 2·(1 - cdf |z|).
The z division is numpy float64 division and never raises (the embedding
returns the junk value 0 on a zero se, where numpy would produce inf/nan;
no claim depends on the value flowing out of that degenerate branch). -/
def pValueOf (sqrt cdf : ℚ → ℚ) (count_a nob_a count_b nob_b : ℕ) : ℚ :=
  let p_a : ℚ := (count_a : ℚ) / (nob_a : ℚ)
  let p_b : ℚ := (count_b : ℚ) / (nob_b : ℚ)
  let p_pooled : ℚ := ((count_a : ℚ) + (count_b : ℚ)) / ((nob_a : ℚ) + (nob_b : ℚ))
  let se := sqrt (p_pooled * (1 - p_pooled) * (1 / (nob_a : ℚ) + 1 / (nob_b : ℚ)))
  let z_stat := (p_b - p_a) / se
  2 * (1 - cdf |z_stat|)

/-- src/src/engine/stats.py, ExperimentStats.analyze_proportions.
count_a / nob_a and count_b / nob_b are Python integer-to-float divisions and
raise ZeroDivisionError on zero trials; the lift (p_b - p_a) / p_a is a
Python float division and raises ZeroDivisionError when p_a = 0.  The
significance flag is computed from the unrounded p-value, while the reported
p_value field is rounded to 5 decimal places (rates, lift and the confidence
interval to 4). -/
def analyze_proportions (sqrt cdf ppf : ℚ → ℚ) (count_a nob_a count_b nob_b : ℕ)
    (alpha : ℚ) : Except PyError AnalysisResult :=
  if nob_a = 0 then .error .zeroDivisionError
  else if nob_b = 0 then .error .zeroDivisionError
  else
    let p_a : ℚ := (count_a : ℚ) / (nob_a : ℚ)
    let p_b : ℚ := (count_b : ℚ) / (nob_b : ℚ)
    let p_pooled : ℚ := ((count_a : ℚ) + (count_b : ℚ)) / ((nob_a : ℚ) + (nob_b : ℚ))
    let se := sqrt (p_pooled * (1 - p_pooled) * (1 / (nob_a : ℚ) + 1 / (nob_b : ℚ)))
    let p_value := pValueOf sqrt cdf count_a nob_a count_b nob_b
    let ci_lower := (p_b - p_a) - ppf (1 - alpha / 2) * se
    let ci_upper := (p_b - p_a) + ppf (1 - alpha / 2) * se
    if p_a = 0 then .error .zeroDivisionError
    else .ok { p_a := roundTo 4 p_a, p_b := roundTo 4 p_b,
               lift := roundTo 4 ((p_b - p_a) / p_a),
               p_value := roundTo 5 p_value,
               ci := (roundTo 4 ci_lower, roundTo 4 ci_upper),
               significant := decide (p_value < alpha) }

end ExperimentStats

section DecisionTheorems

open ExperimentStats

/-- The boolean test applied to one guardrail entry holds exactly when the
entry carries significant = some true and a lift value below -0.02 (a
missing lift defaults to 0 and can never trip the check). -/
theorem guardrail_cond_iff (g : DecisionInput) :
    (g.significant.getD false && decide (g.lift.getD 0 < -0.02)) = true
      ↔ g.significant = some true ∧ ∃ l, g.lift = some l ∧ l < -0.02 := by
  rcases g with ⟨_ | b, _ | x⟩ <;>
    simp [Bool.and_eq_true, decide_eq_true_iff]
  norm_num

/-- The boolean guardrail scan of get_decision holds exactly when some
guardrail entry carries significant = some true and a lift value below
-0.02. -/
theorem guardrail_any_iff (gs : List DecisionInput) :
    (gs.any fun g => g.significant.getD false && decide (g.lift.getD 0 < -0.02)) = true
      ↔ ∃ g ∈ gs, g.significant = some true ∧ ∃ l, g.lift = some l ∧ l < -0.02 := by
  rw [List.any_eq_true]
  simp only [guardrail_cond_iff]

/-- C1: for a well-formed primary result and any list of well-formed
guardrail results, get_decision yields BLOCK exactly when some guardrail is
significant with lift < -0.02 (regardless of the primary), SHIP exactly when
no such guardrail exists and the primary is significant with positive lift,
and INCONCLUSIVE exactly otherwise; the three verdict strings are pairwise
distinct, so exactly one verdict is returned. -/
theorem get_decision_priority (primary : DecisionInput) (gs : List DecisionInput)
    (ps : Bool) (pl : ℚ)
    (hs : primary.significant = some ps) (hl : primary.lift = some pl) :
    (get_decision primary gs = BLOCK
       ↔ ∃ g ∈ gs, g.significant = some true ∧ ∃ l, g.lift = some l ∧ l < -0.02)
    ∧ (get_decision primary gs = SHIP
       ↔ (¬ ∃ g ∈ gs, g.significant = some true ∧ ∃ l, g.lift = some l ∧ l < -0.02)
          ∧ ps = true ∧ 0 < pl)
    ∧ (get_decision primary gs = INCONCLUSIVE
       ↔ (¬ ∃ g ∈ gs, g.significant = some true ∧ ∃ l, g.lift = some l ∧ l < -0.02)
          ∧ ¬ (ps = true ∧ 0 < pl))
    ∧ BLOCK ≠ SHIP ∧ BLOCK ≠ INCONCLUSIVE ∧ SHIP ≠ INCONCLUSIVE := by
  have hdist : BLOCK ≠ SHIP ∧ BLOCK ≠ INCONCLUSIVE ∧ SHIP ≠ INCONCLUSIVE := by
    refine ⟨?_, ?_, ?_⟩ <;> decide
  simp only [get_decision, hs, hl, Option.getD_some]
  by_cases hV :
      (gs.any fun g => g.significant.getD false && decide (g.lift.getD 0 < -0.02)) = true
  · have hEx := (guardrail_any_iff gs).mp hV
    rw [if_pos hV]
    exact ⟨iff_of_true rfl hEx,
      iff_of_false hdist.1 (fun h => h.1 hEx),
      iff_of_false hdist.2.1 (fun h => h.1 hEx), hdist⟩
  · have hnot : ¬ ∃ g ∈ gs, g.significant = some true ∧ ∃ l, g.lift = some l ∧ l < -0.02 :=
      fun h => hV ((guardrail_any_iff gs).mpr h)
    rw [if_neg hV]
    by_cases hpos : (ps && decide (0 < pl)) = true
    · have hpos' : ps = true ∧ 0 < pl := by simpa using hpos
      rw [if_pos hpos]
      exact ⟨iff_of_false (Ne.symm hdist.1) hnot,
        iff_of_true rfl ⟨hnot, hpos'⟩,
        iff_of_false hdist.2.2 (fun h => h.2 hpos'), hdist⟩
    · have hpos' : ¬ (ps = true ∧ 0 < pl) := by simpa using hpos
      rw [if_neg hpos]
      exact ⟨iff_of_false (Ne.symm hdist.2.1) hnot,
        iff_of_false (Ne.symm hdist.2.2) (fun h => hpos' h.2),
        iff_of_true rfl ⟨hnot, hpos'⟩, hdist⟩

/-- Witness for C1: a significant primary with positive lift together with a
significant guardrail whose lift is -0.1 yields BLOCK. -/
theorem get_decision_priority_witness :
    get_decision ⟨some true, some (1/10)⟩ [⟨some true, some (-1/10)⟩] = BLOCK :=
  ((get_decision_priority ⟨some true, some (1/10)⟩ [⟨some true, some (-1/10)⟩]
      true (1/10) rfl rfl).1).mpr
    ⟨⟨some true, some (-1/10)⟩, by simp, rfl, ⟨-1/10, rfl, by norm_num⟩⟩

/-- Counterexample for C3: a primary result missing both required fields does
not fail; get_decision silently defaults them and returns the INCONCLUSIVE
verdict (the embedding is a total function because every operation in the
source — dict.get with a default, boolean tests, comparisons — is total). -/
theorem get_decision_missing_fields_returns_verdict :
    get_decision ⟨none, none⟩ [⟨none, none⟩] = INCONCLUSIVE := rfl

/-- C3 (amended): get_decision silently defaults a missing significant field
to False and a missing lift field to 0, for the primary result exactly as for
the guardrails, and never raises. -/
theorem get_decision_defaults (primary : DecisionInput) (gs : List DecisionInput) :
    get_decision primary gs =
      get_decision ⟨some (primary.significant.getD false), some (primary.lift.getD 0)⟩
        (gs.map fun g => ⟨some (g.significant.getD false), some (g.lift.getD 0)⟩) := by
  simp only [get_decision, List.any_map, Function.comp_def, Option.getD_some]

/-- C10: get_decision is total over arbitrary decision inputs — it always
returns one of the three verdicts — and with an empty guardrail list the
BLOCK branch is unreachable: the verdict is SHIP when the (defaulted)
primary is significant with positive lift and INCONCLUSIVE otherwise. -/
theorem get_decision_total (primary : DecisionInput) (gs : List DecisionInput) :
    (get_decision primary gs = BLOCK ∨ get_decision primary gs = SHIP
        ∨ get_decision primary gs = INCONCLUSIVE)
    ∧ (get_decision primary [] = SHIP ∨ get_decision primary [] = INCONCLUSIVE)
    ∧ get_decision primary [] =
        (if primary.significant.getD false = true ∧ 0 < primary.lift.getD 0
          then SHIP else INCONCLUSIVE) := by
  refine ⟨?_, ?_, ?_⟩
  · simp only [get_decision]
    by_cases hV :
        (gs.any fun g => g.significant.getD false && decide (g.lift.getD 0 < -0.02)) = true
    · rw [if_pos hV]; exact Or.inl rfl
    · rw [if_neg hV]
      by_cases hpos :
          (primary.significant.getD false && decide (0 < primary.lift.getD 0)) = true
      · rw [if_pos hpos]; exact Or.inr (Or.inl rfl)
      · rw [if_neg hpos]; exact Or.inr (Or.inr rfl)
  · simp only [get_decision, List.any_nil, Bool.false_eq_true, if_false]
    by_cases hpos :
        (primary.significant.getD false && decide (0 < primary.lift.getD 0)) = true
    · rw [if_pos hpos]; exact Or.inl rfl
    · rw [if_neg hpos]; exact Or.inr rfl
  · simp only [get_decision, List.any_nil, Bool.false_eq_true, if_false]
    by_cases hpos : primary.significant.getD false = true ∧ 0 < primary.lift.getD 0
    · rw [if_pos (by simp [hpos.1, hpos.2]), if_pos hpos]
    · rw [if_neg (by simpa using hpos), if_neg hpos]

end DecisionTheorems

section RandomizerTheorems

/-- hexdigest distributes over list append. -/
theorem hexdigest_append (xs ys : List ℕ) :
    hexdigest (xs ++ ys) = hexdigest xs ++ hexdigest ys := by
  induction xs with
  | nil => simp [hexdigest]
  | cons b bs ih => simp [hexdigest, ih]

/-- Parsing a hexadecimal character produced from a value below 16 gives the
value back. -/
theorem hexVal_hexChar : ∀ n < 16, hexVal (hexChar n) = n := by decide

/-- Reading the first 8 characters of the hex digest as an integer, as the
source does with int(hash_hex[:8], 16), equals the first 32 bits of the
digest interpreted as a big-endian unsigned integer, provided the digest has
at least four bytes, each below 256. -/
theorem intOfHex_hexdigest_take (bs : List ℕ) (hlen : 4 ≤ bs.length)
    (hb : ∀ b ∈ bs, b < 256) :
    intOfHex ((hexdigest bs).take 8) = first32 bs := by
  rcases bs with _ | ⟨b0, _ | ⟨b1, _ | ⟨b2, _ | ⟨b3, rest⟩⟩⟩⟩ <;>
    simp only [List.length] at hlen <;> try omega
  have h0 : b0 < 256 := hb b0 (by simp)
  have h1 : b1 < 256 := hb b1 (by simp)
  have h2 : b2 < 256 := hb b2 (by simp)
  have h3 : b3 < 256 := hb b3 (by simp)
  have hsplit : b0 :: b1 :: b2 :: b3 :: rest = [b0, b1, b2, b3] ++ rest := rfl
  rw [hsplit, hexdigest_append]
  have hlen8 : (hexdigest [b0, b1, b2, b3]).length = 8 := by
    simp [hexdigest, hexPair]
  rw [List.take_left' hlen8]
  simp only [hexdigest, hexPair, List.cons_append, List.nil_append, List.append_nil,
    intOfHex, List.foldl, first32]
  rw [hexVal_hexChar (b0 / 16) (by omega), hexVal_hexChar (b0 % 16) (by omega),
    hexVal_hexChar (b1 / 16) (by omega), hexVal_hexChar (b1 % 16) (by omega),
    hexVal_hexChar (b2 / 16) (by omega), hexVal_hexChar (b2 % 16) (by omega),
    hexVal_hexChar (b3 / 16) (by omega), hexVal_hexChar (b3 % 16) (by omega)]
  omega

/-- C2: get_variant returns "B" exactly when the first 32 bits of the digest
of the salted key user_id ++ "_" ++ experiment_id, interpreted as an unsigned
integer and reduced modulo 1000, is strictly below split * 1000, and returns
"A" exactly otherwise.  The embedding is a pure function of (digest,
user_id, experiment_id, split) — the source reads no mutable or time-based
state — so identical inputs yield the identical variant by construction. -/
theorem get_variant_spec (digest : String → List ℕ) (user_id experiment_id : String)
    (split : ℚ)
    (hlen : 4 ≤ (digest (user_id ++ "_" ++ experiment_id)).length)
    (hbytes : ∀ b ∈ digest (user_id ++ "_" ++ experiment_id), b < 256) :
    (Randomizer.get_variant digest user_id experiment_id split = "B"
       ↔ ((first32 (digest (user_id ++ "_" ++ experiment_id)) % 1000 : ℕ) : ℚ)
           < split * 1000)
    ∧ (Randomizer.get_variant digest user_id experiment_id split = "A"
       ↔ ¬ ((first32 (digest (user_id ++ "_" ++ experiment_id)) % 1000 : ℕ) : ℚ)
           < split * 1000) := by
  simp only [Randomizer.get_variant, intOfHex_hexdigest_take _ hlen hbytes]
  by_cases h : ((first32 (digest (user_id ++ "_" ++ experiment_id)) % 1000 : ℕ) : ℚ)
      < split * 1000
  · rw [if_pos h]
    exact ⟨iff_of_true rfl h, iff_of_false (by decide) (fun hn => hn h)⟩
  · rw [if_neg h]
    exact ⟨iff_of_false (by decide) h, iff_of_true rfl h⟩

/-- Witness for C2: with a concrete 32-byte digest function, the subject
("u", "e") at split 1/2 is assigned according to the first four digest
bytes. -/
theorem get_variant_spec_witness :
    (Randomizer.get_variant (fun _ => List.range 32) ("u") ("e") (1/2) = "B"
       ↔ ((first32 ((fun (_ : String) => List.range 32) ("u" ++ "_" ++ "e")) % 1000 : ℕ) : ℚ)
           < (1/2) * 1000)
    ∧ (Randomizer.get_variant (fun _ => List.range 32) ("u") ("e") (1/2) = "A"
       ↔ ¬ ((first32 ((fun (_ : String) => List.range 32) ("u" ++ "_" ++ "e")) % 1000 : ℕ) : ℚ)
           < (1/2) * 1000) :=
  get_variant_spec (fun _ => List.range 32) ("u") ("e") (1/2) (by decide) (by decide)

/-- Counterexample for C9: split = 2 lies strictly outside [0, 1], yet
get_variant signals no error and returns the variant label "B". -/
theorem get_variant_out_of_range_returns_label :
    Randomizer.get_variant (fun _ => List.range 32) ("u") ("e") 2 = "B" := by
  have hb : intOfHex ((hexdigest (List.range 32)).take 8) % 1000 = 51 := by decide
  simp only [Randomizer.get_variant, hb]
  norm_num

/-- C9 (amended): get_variant performs no validation of split.  Every real
split yields a variant label; any split ≤ 0 yields "A" for every subject and
any split ≥ 1 yields "B" for every subject, the degenerate one-variant
behaviour extending from split = 0 and split = 1 to all out-of-range
values. -/
theorem get_variant_no_validation (digest : String → List ℕ)
    (user_id experiment_id : String) (split : ℚ) :
    (Randomizer.get_variant digest user_id experiment_id split = "B"
       ∨ Randomizer.get_variant digest user_id experiment_id split = "A")
    ∧ (split ≤ 0 → Randomizer.get_variant digest user_id experiment_id split = "A")
    ∧ (1 ≤ split → Randomizer.get_variant digest user_id experiment_id split = "B") := by
  simp only [Randomizer.get_variant]
  set bucket := intOfHex ((hexdigest (digest (user_id ++ "_" ++ experiment_id))).take 8) % 1000
    with hbucket
  have hlt : bucket < 1000 := Nat.mod_lt _ (by norm_num)
  refine ⟨?_, ?_, ?_⟩
  · by_cases h : (bucket : ℚ) < split * 1000
    · rw [if_pos h]; exact Or.inl rfl
    · rw [if_neg h]; exact Or.inr rfl
  · intro hsplit
    have hnonneg : (0 : ℚ) ≤ (bucket : ℚ) := Nat.cast_nonneg bucket
    have hle : split * 1000 ≤ 0 := by nlinarith
    rw [if_neg (by push_neg; linarith)]
  · intro hsplit
    have : (bucket : ℚ) < 1000 := by exact_mod_cast hlt
    have : (bucket : ℚ) < split * 1000 := by nlinarith
    rw [if_pos this]

/-- Witness for C9 (amended): at the degenerate splits 0 and 1 every subject
is assigned to the single surviving variant, with no error. -/
theorem get_variant_no_validation_witness :
    Randomizer.get_variant (fun _ => List.range 32) ("u") ("e") 0 = "A"
    ∧ Randomizer.get_variant (fun _ => List.range 32) ("u") ("e") 1 = "B" :=
  ⟨(get_variant_no_validation (fun _ => List.range 32) ("u") ("e") 0).2.1 le_rfl,
   (get_variant_no_validation (fun _ => List.range 32) ("u") ("e") 1).2.2 le_rfl⟩

end RandomizerTheorems

section StatsTheorems

open ExperimentStats

/-- C5 (amended): in every result returned by analyze_proportions, the
significant flag is true exactly when the unrounded p-value is strictly below
alpha; the stored p_value field is that value rounded to 5 decimal places,
so the equivalence against the stored field can fail when rounding crosses
alpha. -/
theorem analyze_significant_iff (sqrt cdf ppf : ℚ → ℚ)
    (count_a nob_a count_b nob_b : ℕ) (alpha : ℚ) (r : AnalysisResult)
    (h : analyze_proportions sqrt cdf ppf count_a nob_a count_b nob_b alpha = .ok r) :
    (r.significant = true ↔ pValueOf sqrt cdf count_a nob_a count_b nob_b < alpha)
    ∧ r.p_value = roundTo 5 (pValueOf sqrt cdf count_a nob_a count_b nob_b) := by
  simp only [analyze_proportions] at h
  split_ifs at h with h1 h2 h3
  rw [Except.ok.injEq] at h
  subst h
  exact ⟨by simp [decide_eq_true_iff], rfl⟩

/-- Witness for C5 (amended): a concrete call whose unrounded p-value is
49997/1000000, strictly below alpha = 1/20, so significant is true, while
the stored p_value field is its rounding 1/20. -/
theorem analyze_significant_iff_witness :
    ((⟨1/2, 1/2, 0, 1/20, (-1, 1), true⟩ : AnalysisResult).significant = true
      ↔ pValueOf (fun _ => 1) (fun _ => 1950003/2000000) 1 2 1 2 < 1/20)
    ∧ (⟨1/2, 1/2, 0, 1/20, (-1, 1), true⟩ : AnalysisResult).p_value
        = roundTo 5 (pValueOf (fun _ => 1) (fun _ => 1950003/2000000) 1 2 1 2) :=
  analyze_significant_iff (fun _ => 1) (fun _ => 1950003/2000000) (fun _ => 1)
    1 2 1 2 (1/20) _ (by
      simp only [analyze_proportions, pValueOf, roundTo]
      norm_num [round_eq])

/-- Counterexample for C5: at this concrete call the result has
significant = true while its stored p_value field equals alpha = 1/20
exactly (the unrounded p-value 49997/1000000 rounds up to 1/20), so the
stored field is not strictly below alpha: significant is not equivalent to
"p_value field < alpha". -/
theorem analyze_significant_rounding_gap :
    analyze_proportions (fun _ => 1) (fun _ => 1950003/2000000) (fun _ => 1)
        1 2 1 2 (1/20)
      = .ok (⟨1/2, 1/2, 0, 1/20, (-1, 1), true⟩ : AnalysisResult)
    ∧ decide ((1/20 : ℚ) < (1/20 : ℚ)) = false := by
  constructor
  · simp only [analyze_proportions, pValueOf, roundTo]
    norm_num [round_eq]
  · simp

/-- C6 (amended): a call with positive trial counts and zero successes in
sample A (so p_a = 0) fails fast when computing the lift, but with the very
same ZeroDivisionError class that a zero trial count raises — not with a
distinct UndefinedLift-class error; no infinity or NaN is returned. -/
theorem analyze_zero_successes_error (sqrt cdf ppf : ℚ → ℚ)
    (nob_a count_b nob_b : ℕ) (alpha : ℚ)
    (ha : nob_a ≠ 0) (hb : nob_b ≠ 0) :
    analyze_proportions sqrt cdf ppf 0 nob_a count_b nob_b alpha
      = .error .zeroDivisionError
    ∧ analyze_proportions sqrt cdf ppf count_b 0 count_b nob_b alpha
      = .error .zeroDivisionError := by
  constructor
  · simp only [analyze_proportions]
    rw [if_neg ha, if_neg hb, if_pos (by simp)]
  · simp [analyze_proportions]

/-- Witness for C6 (amended): zero successes out of 12 trials against 5 of
12 gives the ZeroDivisionError, exactly as a zero trial count does. -/
theorem analyze_zero_successes_error_witness :
    analyze_proportions (fun _ => 1) (fun _ => 1/2) (fun _ => 1) 0 12 5 12 (1/20)
      = .error .zeroDivisionError
    ∧ analyze_proportions (fun _ => 1) (fun _ => 1/2) (fun _ => 1) 5 0 5 12 (1/20)
      = .error .zeroDivisionError :=
  analyze_zero_successes_error (fun _ => 1) (fun _ => 1/2) (fun _ => 1)
    12 5 12 (1/20) (by norm_num) (by norm_num)

/-- Counterexample for C6: the error raised for zero successes (p_a = 0, at
the lift computation) is the same ZeroDivisionError value raised for zero
trials — the two conditions are not distinct, reportably different error
classes as the claim requires. -/
theorem analyze_zero_pa_same_error_class :
    analyze_proportions (fun _ => 1) (fun _ => 1/2) (fun _ => 1) 0 10 7 10 (1/20)
      = .error .zeroDivisionError
    ∧ analyze_proportions (fun _ => 1) (fun _ => 1/2) (fun _ => 1) 7 0 7 10 (1/20)
      = .error .zeroDivisionError := by
  constructor
  · simp only [analyze_proportions]
    norm_num
  · simp [analyze_proportions]

/-- C7 (amended): with mde = 0 (and a baseline in (0,1), inside the domain
where the float computation is faithful), the zero denominator raises
nothing at the division — numpy silently yields inf, or nan when the
numerator is zero as well — and the call fails only at the final int()
conversion, with an OverflowError-class (resp. ValueError-class) error, not
an UndefinedSampleSize-class error at the point of the division. -/
theorem calculate_sample_size_mde_zero {K : Type} [LinearOrderedField K] [FloorRing K]
    (sqrt ppf : K → K) (baseline mde alpha power : K)
    (_hb0 : 0 < baseline) (_hb1 : baseline < 1) (hm : mde = 0) :
    calculate_sample_size sqrt ppf baseline mde alpha power
      = .error (if sampleSizeNum sqrt ppf baseline mde alpha power = 0
          then PyError.valueError else PyError.overflowError) := by
  subst hm
  simp only [calculate_sample_size]
  rw [if_pos (by ring_nf)]

/-- Witness for C7 (amended): a concrete mde = 0 call lands in the deferred
conversion error. -/
theorem calculate_sample_size_mde_zero_witness :
    calculate_sample_size (K := ℚ) (fun _ => 1) (fun x => x) (1/5) 0 (1/2) (4/5)
      = .error (if sampleSizeNum (K := ℚ) (fun _ => 1) (fun x => x) (1/5) 0 (1/2) (4/5) = 0
          then PyError.valueError else PyError.overflowError) :=
  calculate_sample_size_mde_zero (fun _ => 1) (fun x => x) (1/5) 0 (1/2) (4/5)
    (by norm_num) (by norm_num) rfl

/-- Counterexample for C7: at baseline 1/10, mde = 0, the call returns the
OverflowError class of the int(inf) conversion — there is no
UndefinedSampleSize-class validation error raised at the division. -/
theorem calculate_sample_size_mde_zero_overflow :
    calculate_sample_size (K := ℚ) (fun _ => 1) (fun x => x) (1/10) 0 (1/2) (4/5)
      = .error PyError.overflowError := by
  simp only [calculate_sample_size, sampleSizeNum]
  norm_num

/-- C4: for a baseline in (0,1), nonzero mde keeping p2 in (0,1), a positive
z_alpha and nonnegative z_beta (alpha and power in their standard operating
ranges), and any square root that is positive on positive arguments,
calculate_sample_size raises nothing and returns exactly the ceiling of the
specification's closed-form value, and that integer is positive. -/
theorem calculate_sample_size_spec {K : Type} [LinearOrderedField K] [FloorRing K]
    (sqrt ppf : K → K) (baseline mde alpha power : K)
    (hsqrt : ∀ x, 0 < x → 0 < sqrt x)
    (hb0 : 0 < baseline) (hb1 : baseline < 1) (hm : mde ≠ 0)
    (hp0 : 0 < baseline * (1 + mde)) (hp1 : baseline * (1 + mde) < 1)
    (hza : 0 < ppf (1 - alpha / 2)) (hzb : 0 ≤ ppf power) :
    calculate_sample_size sqrt ppf baseline mde alpha power
      = .ok ⌈sampleSizeSpec sqrt ppf baseline mde alpha power⌉
    ∧ 0 < ⌈sampleSizeSpec sqrt ppf baseline mde alpha power⌉ := by
  have hkey : baseline - baseline * (1 + mde) = -(baseline * mde) := by ring
  have hne : baseline - baseline * (1 + mde) ≠ 0 := by
    rw [hkey]
    exact neg_ne_zero.mpr (mul_ne_zero (ne_of_gt hb0) hm)
  have hdenom : (baseline - baseline * (1 + mde)) ^ 2 ≠ 0 := pow_ne_zero 2 hne
  constructor
  · simp only [calculate_sample_size]
    rw [if_neg hdenom]
    rfl
  · have harg1 : 0 < 2 * ((baseline + baseline * (1 + mde)) / 2)
        * (1 - (baseline + baseline * (1 + mde)) / 2) := by nlinarith
    have harg2 : 0 < baseline * (1 - baseline)
        + baseline * (1 + mde) * (1 - baseline * (1 + mde)) := by nlinarith
    have hsum : 0 < ppf (1 - alpha / 2)
          * sqrt (2 * ((baseline + baseline * (1 + mde)) / 2)
              * (1 - (baseline + baseline * (1 + mde)) / 2))
        + ppf power
          * sqrt (baseline * (1 - baseline)
              + baseline * (1 + mde) * (1 - baseline * (1 + mde))) :=
      add_pos_of_pos_of_nonneg (mul_pos hza (hsqrt _ harg1))
        (mul_nonneg hzb (hsqrt _ harg2).le)
    have hval : 0 < sampleSizeSpec sqrt ppf baseline mde alpha power := by
      simp only [sampleSizeSpec]
      exact div_pos (pow_pos hsum 2) (pow_two_pos_of_ne_zero hne)
    exact Int.ceil_pos.mpr hval

/-- Witness for C4: baseline 1/2, mde 1/2, alpha 1/2, power 4/5 with a
concrete positive square-root stand-in and the identity as quantile
function. -/
theorem calculate_sample_size_spec_witness :
    calculate_sample_size (K := ℚ) (fun _ => 1) (fun x => x) (1/2) (1/2) (1/2) (4/5)
      = .ok ⌈sampleSizeSpec (K := ℚ) (fun _ => 1) (fun x => x) (1/2) (1/2) (1/2) (4/5)⌉
    ∧ 0 < ⌈sampleSizeSpec (K := ℚ) (fun _ => 1) (fun x => x) (1/2) (1/2) (1/2) (4/5)⌉ :=
  calculate_sample_size_spec (fun _ => 1) (fun x => x) (1/2) (1/2) (1/2) (4/5)
    (fun _ _ => one_pos) (by norm_num) (by norm_num) (by norm_num)
    (by norm_num) (by norm_num) (by norm_num) (by norm_num)

end StatsTheorems

section MonotoneTheorems

open ExperimentStats

/-- Counterexample for C8: calculate_sample_size is not strictly increasing
as mde decreases — rounding up to an integer produces plateaus.  With a
concrete instantiation of the library parameters, mde = 91/100 and the
larger mde = 23/25 return the same sample size 12. -/
theorem calculate_sample_size_not_strictly_monotone :
    (91/100 : ℚ) ≠ 23/25
    ∧ calculate_sample_size (K := ℚ) (fun _ => 1) (fun x => x) (1/2) (91/100) (1/2) (4/5)
        = .ok 12
    ∧ calculate_sample_size (K := ℚ) (fun _ => 1) (fun x => x) (1/2) (23/25) (1/2) (4/5)
        = .ok 12 := by
  refine ⟨by norm_num, ?_, ?_⟩
  · simp only [calculate_sample_size]
    rw [if_neg (by norm_num)]
    rw [Except.ok.injEq]
    rw [show sampleSizeVal (K := ℚ) (fun _ => 1) (fun x => x) (1/2) (91/100) (1/2) (4/5)
        = 96100/8281 by simp only [sampleSizeVal, sampleSizeNum]; norm_num]
    rw [Int.ceil_eq_iff]
    norm_num
  · simp only [calculate_sample_size]
    rw [if_neg (by norm_num)]
    rw [Except.ok.injEq]
    rw [show sampleSizeVal (K := ℚ) (fun _ => 1) (fun x => x) (1/2) (23/25) (1/2) (4/5)
        = 600625/52900 by simp only [sampleSizeVal, sampleSizeNum]; norm_num]
    rw [Int.ceil_eq_iff]
    norm_num

/-- Positivity of the bracket factor appearing in the difference of two
scaled variance terms of the sample-size formula. -/
theorem sample_bracket_pos (p1 m1 m2 : ℝ) (hp1 : 0 < p1) (hm1 : 0 < m1)
    (h12 : m1 < m2) (hp2 : p1 * (1 + m2) < 1) :
    0 < (1 - p1) * (m1 + m2) + ((1 - p1) - p1) * (m1 * m2) / 2 := by
  have hm2 : 0 < m2 := hm1.trans h12
  have hq : p1 * m2 < 1 - p1 := by nlinarith
  have hq0 : 0 < 1 - p1 := lt_trans (mul_pos hp1 hm2) hq
  nlinarith [mul_lt_mul_of_pos_right hq hm1, mul_pos hq0 hm2,
    mul_pos hq0 (mul_pos hm1 hm2), mul_pos hq0 hm1]

/-- The pooled-variance term 2·p_avg·(1-p_avg), divided by the squared
denominator (p1·m)², strictly decreases as mde grows within range. -/
theorem avg_term_strict_anti (p1 m1 m2 : ℝ) (hp1 : 0 < p1) (hm1 : 0 < m1)
    (h12 : m1 < m2) (hp2 : p1 * (1 + m2) < 1) :
    2 * ((p1 + p1 * (1 + m2)) / 2) * (1 - (p1 + p1 * (1 + m2)) / 2) / (p1 * m2) ^ 2
      < 2 * ((p1 + p1 * (1 + m1)) / 2) * (1 - (p1 + p1 * (1 + m1)) / 2) / (p1 * m1) ^ 2 := by
  have hm2 : 0 < m2 := hm1.trans h12
  rw [div_lt_div_iff₀ (pow_pos (mul_pos hp1 hm2) 2) (pow_pos (mul_pos hp1 hm1) 2)]
  have hbr := sample_bracket_pos p1 m1 m2 hp1 hm1 h12 hp2
  have hfac : 0 < p1 ^ 3 * (m2 - m1)
      * ((1 - p1) * (m1 + m2) + ((1 - p1) - p1) * (m1 * m2) / 2) :=
    mul_pos (mul_pos (pow_pos hp1 3) (by linarith)) hbr
  nlinarith [hfac]

/-- The unpooled-variance term p1·(1-p1) + p2·(1-p2), divided by the squared
denominator (p1·m)², strictly decreases as mde grows within range. -/
theorem se_term_strict_anti (p1 m1 m2 : ℝ) (hp1 : 0 < p1) (hm1 : 0 < m1)
    (h12 : m1 < m2) (hp2 : p1 * (1 + m2) < 1) :
    (p1 * (1 - p1) + p1 * (1 + m2) * (1 - p1 * (1 + m2))) / (p1 * m2) ^ 2
      < (p1 * (1 - p1) + p1 * (1 + m1) * (1 - p1 * (1 + m1))) / (p1 * m1) ^ 2 := by
  have hm2 : 0 < m2 := hm1.trans h12
  rw [div_lt_div_iff₀ (pow_pos (mul_pos hp1 hm2) 2) (pow_pos (mul_pos hp1 hm1) 2)]
  have hbr := sample_bracket_pos p1 m1 m2 hp1 hm1 h12 hp2
  have hfac : 0 < p1 ^ 3 * (m2 - m1)
      * ((1 - p1) * (m1 + m2) + ((1 - p1) - p1) * (m1 * m2) / 2) :=
    mul_pos (mul_pos (pow_pos hp1 3) (by linarith)) hbr
  nlinarith [hfac]

/-- Rewriting a square root divided by the positive quantity p1·m as the
square root of the quotient by (p1·m)². -/
theorem sqrt_div_scale (p1 m X : ℝ) (hp1 : 0 < p1) (hm : 0 < m) (hX : 0 ≤ X) :
    Real.sqrt X / (p1 * m) = Real.sqrt (X / (p1 * m) ^ 2) := by
  rw [Real.sqrt_div hX, Real.sqrt_sq (mul_pos hp1 hm).le]

/-- The pre-rounding sample-size value n strictly decreases as mde grows
(with the true square root, p2 within range, z_alpha positive and z_beta
nonnegative): equivalently n strictly increases as mde decreases toward
zero. -/
theorem sampleSizeVal_mde_strict_anti (ppf : ℝ → ℝ) (p1 m1 m2 a pw : ℝ)
    (hp1 : 0 < p1) (hm1 : 0 < m1) (h12 : m1 < m2) (hp2 : p1 * (1 + m2) < 1)
    (hza : 0 < ppf (1 - a / 2)) (hzb : 0 ≤ ppf pw) :
    sampleSizeVal Real.sqrt ppf p1 m2 a pw < sampleSizeVal Real.sqrt ppf p1 m1 a pw := by
  have hm2 : 0 < m2 := hm1.trans h12
  have hval : ∀ m : ℝ, sampleSizeVal Real.sqrt ppf p1 m a pw
      = ((ppf (1 - a / 2)
            * Real.sqrt (2 * ((p1 + p1 * (1 + m)) / 2) * (1 - (p1 + p1 * (1 + m)) / 2))
          + ppf pw
            * Real.sqrt (p1 * (1 - p1) + p1 * (1 + m) * (1 - p1 * (1 + m))))
          / (p1 * m)) ^ 2 := by
    intro m
    simp only [sampleSizeVal, sampleSizeNum]
    rw [div_pow, show (p1 - p1 * (1 + m)) ^ 2 = (p1 * m) ^ 2 by ring]
  rw [hval m1, hval m2]
  have h1m2 : (0:ℝ) < 1 + m2 := by linarith
  have h1m1 : (0:ℝ) < 1 + m1 := by linarith
  have hp22 : 0 < p1 * (1 + m2) := mul_pos hp1 h1m2
  have hp21 : 0 < p1 * (1 + m1) := mul_pos hp1 h1m1
  have hp2m1 : p1 * (1 + m1) < 1 := by
    nlinarith [mul_pos hp1 (show (0:ℝ) < m2 - m1 by linarith)]
  have hp1lt1 : p1 < 1 := by nlinarith [mul_pos hp1 hm2]
  have hA2 : (0:ℝ) ≤ 2 * ((p1 + p1 * (1 + m2)) / 2) * (1 - (p1 + p1 * (1 + m2)) / 2) := by
    nlinarith [mul_pos (show (0:ℝ) < p1 + p1 * (1 + m2) by linarith)
      (show (0:ℝ) < 2 - (p1 + p1 * (1 + m2)) by linarith)]
  have hA1 : (0:ℝ) ≤ 2 * ((p1 + p1 * (1 + m1)) / 2) * (1 - (p1 + p1 * (1 + m1)) / 2) := by
    nlinarith [mul_pos (show (0:ℝ) < p1 + p1 * (1 + m1) by linarith)
      (show (0:ℝ) < 2 - (p1 + p1 * (1 + m1)) by linarith)]
  have hB2 : (0:ℝ) ≤ p1 * (1 - p1) + p1 * (1 + m2) * (1 - p1 * (1 + m2)) := by
    nlinarith [mul_pos hp1 (show (0:ℝ) < 1 - p1 by linarith),
      mul_pos hp22 (show (0:ℝ) < 1 - p1 * (1 + m2) by linarith)]
  have hB1 : (0:ℝ) ≤ p1 * (1 - p1) + p1 * (1 + m1) * (1 - p1 * (1 + m1)) := by
    nlinarith [mul_pos hp1 (show (0:ℝ) < 1 - p1 by linarith),
      mul_pos hp21 (show (0:ℝ) < 1 - p1 * (1 + m1) by linarith)]
  have hS2 : (0:ℝ) ≤ (ppf (1 - a / 2)
        * Real.sqrt (2 * ((p1 + p1 * (1 + m2)) / 2) * (1 - (p1 + p1 * (1 + m2)) / 2))
      + ppf pw
        * Real.sqrt (p1 * (1 - p1) + p1 * (1 + m2) * (1 - p1 * (1 + m2))))
      / (p1 * m2) :=
    div_nonneg
      (add_nonneg (mul_nonneg hza.le (Real.sqrt_nonneg _))
        (mul_nonneg hzb (Real.sqrt_nonneg _)))
      (mul_pos hp1 hm2).le
  have hSlt : (ppf (1 - a / 2)
        * Real.sqrt (2 * ((p1 + p1 * (1 + m2)) / 2) * (1 - (p1 + p1 * (1 + m2)) / 2))
      + ppf pw
        * Real.sqrt (p1 * (1 - p1) + p1 * (1 + m2) * (1 - p1 * (1 + m2))))
        / (p1 * m2)
      < (ppf (1 - a / 2)
        * Real.sqrt (2 * ((p1 + p1 * (1 + m1)) / 2) * (1 - (p1 + p1 * (1 + m1)) / 2))
      + ppf pw
        * Real.sqrt (p1 * (1 - p1) + p1 * (1 + m1) * (1 - p1 * (1 + m1))))
        / (p1 * m1) := by
    have e2 : (ppf (1 - a / 2)
          * Real.sqrt (2 * ((p1 + p1 * (1 + m2)) / 2) * (1 - (p1 + p1 * (1 + m2)) / 2))
        + ppf pw
          * Real.sqrt (p1 * (1 - p1) + p1 * (1 + m2) * (1 - p1 * (1 + m2))))
          / (p1 * m2)
        = ppf (1 - a / 2)
            * Real.sqrt (2 * ((p1 + p1 * (1 + m2)) / 2) * (1 - (p1 + p1 * (1 + m2)) / 2)
                / (p1 * m2) ^ 2)
          + ppf pw
            * Real.sqrt ((p1 * (1 - p1) + p1 * (1 + m2) * (1 - p1 * (1 + m2)))
                / (p1 * m2) ^ 2) := by
      rw [← sqrt_div_scale p1 m2 _ hp1 hm2 hA2, ← sqrt_div_scale p1 m2 _ hp1 hm2 hB2]
      ring
    have e1 : (ppf (1 - a / 2)
          * Real.sqrt (2 * ((p1 + p1 * (1 + m1)) / 2) * (1 - (p1 + p1 * (1 + m1)) / 2))
        + ppf pw
          * Real.sqrt (p1 * (1 - p1) + p1 * (1 + m1) * (1 - p1 * (1 + m1))))
          / (p1 * m1)
        = ppf (1 - a / 2)
            * Real.sqrt (2 * ((p1 + p1 * (1 + m1)) / 2) * (1 - (p1 + p1 * (1 + m1)) / 2)
                / (p1 * m1) ^ 2)
          + ppf pw
            * Real.sqrt ((p1 * (1 - p1) + p1 * (1 + m1) * (1 - p1 * (1 + m1)))
                / (p1 * m1) ^ 2) := by
      rw [← sqrt_div_scale p1 m1 _ hp1 hm1 hA1, ← sqrt_div_scale p1 m1 _ hp1 hm1 hB1]
      ring
    rw [e1, e2]
    have hAq : 2 * ((p1 + p1 * (1 + m2)) / 2) * (1 - (p1 + p1 * (1 + m2)) / 2)
          / (p1 * m2) ^ 2
        < 2 * ((p1 + p1 * (1 + m1)) / 2) * (1 - (p1 + p1 * (1 + m1)) / 2)
          / (p1 * m1) ^ 2 :=
      avg_term_strict_anti p1 m1 m2 hp1 hm1 h12 hp2
    have hBq : (p1 * (1 - p1) + p1 * (1 + m2) * (1 - p1 * (1 + m2))) / (p1 * m2) ^ 2
        < (p1 * (1 - p1) + p1 * (1 + m1) * (1 - p1 * (1 + m1))) / (p1 * m1) ^ 2 :=
      se_term_strict_anti p1 m1 m2 hp1 hm1 h12 hp2
    have hA2q : (0:ℝ) ≤ 2 * ((p1 + p1 * (1 + m2)) / 2) * (1 - (p1 + p1 * (1 + m2)) / 2)
        / (p1 * m2) ^ 2 := div_nonneg hA2 (sq_nonneg _)
    have hB2q : (0:ℝ) ≤ (p1 * (1 - p1) + p1 * (1 + m2) * (1 - p1 * (1 + m2)))
        / (p1 * m2) ^ 2 := div_nonneg hB2 (sq_nonneg _)
    exact add_lt_add_of_lt_of_le
      (mul_lt_mul_of_pos_left (Real.sqrt_lt_sqrt hA2q hAq) hza)
      (mul_le_mul_of_nonneg_left (Real.sqrt_le_sqrt hBq.le) hzb)
  calc ((ppf (1 - a / 2)
        * Real.sqrt (2 * ((p1 + p1 * (1 + m2)) / 2) * (1 - (p1 + p1 * (1 + m2)) / 2))
      + ppf pw
        * Real.sqrt (p1 * (1 - p1) + p1 * (1 + m2) * (1 - p1 * (1 + m2))))
        / (p1 * m2)) ^ 2
      < ((ppf (1 - a / 2)
        * Real.sqrt (2 * ((p1 + p1 * (1 + m1)) / 2) * (1 - (p1 + p1 * (1 + m1)) / 2))
      + ppf pw
        * Real.sqrt (p1 * (1 - p1) + p1 * (1 + m1) * (1 - p1 * (1 + m1))))
        / (p1 * m1)) ^ 2 := by
        exact pow_lt_pow_left₀ hSlt hS2 (by norm_num)

/-- The pre-rounding sample-size value n strictly decreases as alpha grows
(z_alpha = ppf(1 - alpha/2) falls with growing alpha for a strictly monotone
quantile function): equivalently n strictly increases as alpha decreases. -/
theorem sampleSizeVal_alpha_strict_anti (ppf : ℝ → ℝ) (p1 m a1 a2 pw : ℝ)
    (hppf : StrictMono ppf)
    (hp1 : 0 < p1) (hm : 0 < m) (hp2 : p1 * (1 + m) < 1)
    (h12 : a1 < a2) (hza2 : 0 < ppf (1 - a2 / 2)) (hzb : 0 ≤ ppf pw) :
    sampleSizeVal Real.sqrt ppf p1 m a2 pw < sampleSizeVal Real.sqrt ppf p1 m a1 pw := by
  simp only [sampleSizeVal, sampleSizeNum]
  have hD : 0 < (p1 - p1 * (1 + m)) ^ 2 := by
    rw [show (p1 - p1 * (1 + m)) ^ 2 = (p1 * m) ^ 2 by ring]
    exact pow_pos (mul_pos hp1 hm) 2
  have h1m : (0:ℝ) < 1 + m := by linarith
  have hp2pos : 0 < p1 * (1 + m) := mul_pos hp1 h1m
  have hp1lt1 : p1 < 1 := by nlinarith [mul_pos hp1 hm]
  have hApos : 0 < 2 * ((p1 + p1 * (1 + m)) / 2) * (1 - (p1 + p1 * (1 + m)) / 2) := by
    nlinarith [mul_pos (show (0:ℝ) < p1 + p1 * (1 + m) by linarith)
      (show (0:ℝ) < 2 - (p1 + p1 * (1 + m)) by linarith)]
  have hs1 : 0 < Real.sqrt (2 * ((p1 + p1 * (1 + m)) / 2) * (1 - (p1 + p1 * (1 + m)) / 2)) :=
    Real.sqrt_pos.mpr hApos
  have hz12 : ppf (1 - a2 / 2) < ppf (1 - a1 / 2) := hppf (by linarith)
  have hsum2 : (0:ℝ) ≤ ppf (1 - a2 / 2)
        * Real.sqrt (2 * ((p1 + p1 * (1 + m)) / 2) * (1 - (p1 + p1 * (1 + m)) / 2))
      + ppf pw * Real.sqrt (p1 * (1 - p1) + p1 * (1 + m) * (1 - p1 * (1 + m))) :=
    add_nonneg (mul_nonneg hza2.le (Real.sqrt_nonneg _))
      (mul_nonneg hzb (Real.sqrt_nonneg _))
  have hsumlt : ppf (1 - a2 / 2)
        * Real.sqrt (2 * ((p1 + p1 * (1 + m)) / 2) * (1 - (p1 + p1 * (1 + m)) / 2))
      + ppf pw * Real.sqrt (p1 * (1 - p1) + p1 * (1 + m) * (1 - p1 * (1 + m)))
      < ppf (1 - a1 / 2)
        * Real.sqrt (2 * ((p1 + p1 * (1 + m)) / 2) * (1 - (p1 + p1 * (1 + m)) / 2))
      + ppf pw * Real.sqrt (p1 * (1 - p1) + p1 * (1 + m) * (1 - p1 * (1 + m))) := by
    nlinarith [mul_pos (sub_pos.mpr hz12) hs1]
  rw [div_lt_div_iff₀ hD hD]
  exact mul_lt_mul_of_pos_right (pow_lt_pow_left₀ hsumlt hsum2 (by norm_num)) hD

/-- The pre-rounding sample-size value n strictly increases as power grows
(z_beta = ppf(power) rises with power for a strictly monotone quantile
function). -/
theorem sampleSizeVal_power_strict_mono (ppf : ℝ → ℝ) (p1 m a pw1 pw2 : ℝ)
    (hppf : StrictMono ppf)
    (hp1 : 0 < p1) (hm : 0 < m) (hp2 : p1 * (1 + m) < 1)
    (h12 : pw1 < pw2) (hza : 0 < ppf (1 - a / 2)) (hzb1 : 0 ≤ ppf pw1) :
    sampleSizeVal Real.sqrt ppf p1 m a pw1 < sampleSizeVal Real.sqrt ppf p1 m a pw2 := by
  simp only [sampleSizeVal, sampleSizeNum]
  have hD : 0 < (p1 - p1 * (1 + m)) ^ 2 := by
    rw [show (p1 - p1 * (1 + m)) ^ 2 = (p1 * m) ^ 2 by ring]
    exact pow_pos (mul_pos hp1 hm) 2
  have h1m : (0:ℝ) < 1 + m := by linarith
  have hp2pos : 0 < p1 * (1 + m) := mul_pos hp1 h1m
  have hp1lt1 : p1 < 1 := by nlinarith [mul_pos hp1 hm]
  have hBpos : 0 < p1 * (1 - p1) + p1 * (1 + m) * (1 - p1 * (1 + m)) := by
    nlinarith [mul_pos hp1 (show (0:ℝ) < 1 - p1 by linarith),
      mul_pos hp2pos (show (0:ℝ) < 1 - p1 * (1 + m) by linarith)]
  have hs2 : 0 < Real.sqrt (p1 * (1 - p1) + p1 * (1 + m) * (1 - p1 * (1 + m))) :=
    Real.sqrt_pos.mpr hBpos
  have hz12 : ppf pw1 < ppf pw2 := hppf h12
  have hsum1 : (0:ℝ) ≤ ppf (1 - a / 2)
        * Real.sqrt (2 * ((p1 + p1 * (1 + m)) / 2) * (1 - (p1 + p1 * (1 + m)) / 2))
      + ppf pw1 * Real.sqrt (p1 * (1 - p1) + p1 * (1 + m) * (1 - p1 * (1 + m))) :=
    add_nonneg (mul_nonneg hza.le (Real.sqrt_nonneg _))
      (mul_nonneg hzb1 (Real.sqrt_nonneg _))
  have hsumlt : ppf (1 - a / 2)
        * Real.sqrt (2 * ((p1 + p1 * (1 + m)) / 2) * (1 - (p1 + p1 * (1 + m)) / 2))
      + ppf pw1 * Real.sqrt (p1 * (1 - p1) + p1 * (1 + m) * (1 - p1 * (1 + m)))
      < ppf (1 - a / 2)
        * Real.sqrt (2 * ((p1 + p1 * (1 + m)) / 2) * (1 - (p1 + p1 * (1 + m)) / 2))
      + ppf pw2 * Real.sqrt (p1 * (1 - p1) + p1 * (1 + m) * (1 - p1 * (1 + m))) := by
    nlinarith [mul_pos (sub_pos.mpr hz12) hs2]
  rw [div_lt_div_iff₀ hD hD]
  exact mul_lt_mul_of_pos_right (pow_lt_pow_left₀ hsumlt hsum1 (by norm_num)) hD

/-- C8 (amended): for parameters in range (baseline and p2 in (0,1), a
strictly monotone quantile function with z_alpha > 0 and z_beta ≥ 0), the
pre-rounding value n of calculate_sample_size is strictly increasing as mde
decreases toward zero, strictly increasing as alpha decreases, and strictly
increasing as power increases; the integer result, being a ceiling, is
weakly increasing in each of the three directions (strictness fails at the
integer level because of rounding plateaus), and within this range the call
returns .ok of that ceiling. -/
theorem calculate_sample_size_monotone (ppf : ℝ → ℝ)
    (p1 m1 m2 a a1 a2 pw pw1 pw2 : ℝ)
    (hppf : StrictMono ppf)
    (hp1 : 0 < p1) (hm1 : 0 < m1) (hm12 : m1 < m2) (hp2 : p1 * (1 + m2) < 1)
    (hza : 0 < ppf (1 - a / 2)) (hzb : 0 ≤ ppf pw)
    (ha12 : a1 < a2) (hza2 : 0 < ppf (1 - a2 / 2))
    (hpw12 : pw1 < pw2) (hzb1 : 0 ≤ ppf pw1) :
    (sampleSizeVal Real.sqrt ppf p1 m2 a pw < sampleSizeVal Real.sqrt ppf p1 m1 a pw
      ∧ ⌈sampleSizeVal Real.sqrt ppf p1 m2 a pw⌉ ≤ ⌈sampleSizeVal Real.sqrt ppf p1 m1 a pw⌉)
    ∧ (sampleSizeVal Real.sqrt ppf p1 m1 a2 pw < sampleSizeVal Real.sqrt ppf p1 m1 a1 pw
      ∧ ⌈sampleSizeVal Real.sqrt ppf p1 m1 a2 pw⌉ ≤ ⌈sampleSizeVal Real.sqrt ppf p1 m1 a1 pw⌉)
    ∧ (sampleSizeVal Real.sqrt ppf p1 m1 a pw1 < sampleSizeVal Real.sqrt ppf p1 m1 a pw2
      ∧ ⌈sampleSizeVal Real.sqrt ppf p1 m1 a pw1⌉ ≤ ⌈sampleSizeVal Real.sqrt ppf p1 m1 a pw2⌉)
    ∧ calculate_sample_size Real.sqrt ppf p1 m1 a pw
        = .ok ⌈sampleSizeVal Real.sqrt ppf p1 m1 a pw⌉ := by
  have hm2 : 0 < m2 := hm1.trans hm12
  have hp2m1 : p1 * (1 + m1) < 1 := by
    nlinarith [mul_pos hp1 (show (0:ℝ) < m2 - m1 by linarith)]
  have h1 := sampleSizeVal_mde_strict_anti ppf p1 m1 m2 a pw hp1 hm1 hm12 hp2 hza hzb
  have h2 := sampleSizeVal_alpha_strict_anti ppf p1 m1 a1 a2 pw hppf hp1 hm1 hp2m1
    ha12 hza2 hzb
  have h3 := sampleSizeVal_power_strict_mono ppf p1 m1 a pw1 pw2 hppf hp1 hm1 hp2m1
    hpw12 hza hzb1
  refine ⟨⟨h1, Int.ceil_mono h1.le⟩, ⟨h2, Int.ceil_mono h2.le⟩,
    ⟨h3, Int.ceil_mono h3.le⟩, ?_⟩
  simp only [ExperimentStats.calculate_sample_size]
  rw [if_neg ?_]
  have : (p1 - p1 * (1 + m1)) ^ 2 = (p1 * m1) ^ 2 := by ring
  rw [this]
  exact ne_of_gt (pow_pos (mul_pos hp1 hm1) 2)

/-- Witness for C8 (amended): the identity as quantile function with
baseline 1/2, mde values 1/10 < 1/5, alpha values 2/5 < 1/2, power values
7/10 < 4/5, all in range. -/
theorem calculate_sample_size_monotone_witness :
    (sampleSizeVal Real.sqrt (fun x => x) (1/2) (1/5) (1/2) (4/5)
        < sampleSizeVal Real.sqrt (fun x => x) (1/2) (1/10) (1/2) (4/5)
      ∧ ⌈sampleSizeVal Real.sqrt (fun x => x) (1/2) (1/5) (1/2) (4/5)⌉
        ≤ ⌈sampleSizeVal Real.sqrt (fun x => x) (1/2) (1/10) (1/2) (4/5)⌉)
    ∧ (sampleSizeVal Real.sqrt (fun x => x) (1/2) (1/10) (1/2) (4/5)
        < sampleSizeVal Real.sqrt (fun x => x) (1/2) (1/10) (2/5) (4/5)
      ∧ ⌈sampleSizeVal Real.sqrt (fun x => x) (1/2) (1/10) (1/2) (4/5)⌉
        ≤ ⌈sampleSizeVal Real.sqrt (fun x => x) (1/2) (1/10) (2/5) (4/5)⌉)
    ∧ (sampleSizeVal Real.sqrt (fun x => x) (1/2) (1/10) (1/2) (7/10)
        < sampleSizeVal Real.sqrt (fun x => x) (1/2) (1/10) (1/2) (4/5)
      ∧ ⌈sampleSizeVal Real.sqrt (fun x => x) (1/2) (1/10) (1/2) (7/10)⌉
        ≤ ⌈sampleSizeVal Real.sqrt (fun x => x) (1/2) (1/10) (1/2) (4/5)⌉)
    ∧ calculate_sample_size Real.sqrt (fun x => x) (1/2) (1/10) (1/2) (4/5)
        = .ok ⌈sampleSizeVal Real.sqrt (fun x => x) (1/2) (1/10) (1/2) (4/5)⌉ :=
  calculate_sample_size_monotone (fun x => x) (1/2) (1/10) (1/5) (1/2) (2/5) (1/2)
    (4/5) (7/10) (4/5) (fun _ _ h => h) (by norm_num) (by norm_num) (by norm_num)
    (by norm_num) (by norm_num) (by norm_num) (by norm_num) (by norm_num)
    (by norm_num) (by norm_num)

end MonotoneTheorems

end ABEngine
